import Mathlib

/-!
Shallow embedding of `src/nasa_exoplanet_detector/apps/ml_pipeline/model_trainer.py`
(`train_all` and its helpers), together with theorems settling the frozen claims
about the training pipeline: input validation, split-strategy selection,
stratification, label encoding for the gradient-boosted model, artifact
persistence, best-model selection, determinism, and the parallel encoded split.

Numeric feature and accuracy values are modelled as rationals; missing values
(pandas `NaN`) as `Option`; the pandas data frame as a list of typed rows plus a
flag recording whether the `stellar_temp` column is present at all.  Library
model fitting (scikit-learn / xgboost `fit`, `predict`, `pickle.dump`) is
modelled by an oracle record of deterministic functions, reflecting the
libraries' documented contract that fitting is a deterministic function of the
hyperparameters (including the fixed `random_state`) and the training data.
-/

namespace ModelTrainer

instance {ε α : Type} [DecidableEq ε] [DecidableEq α] : DecidableEq (Except ε α) := fun x y =>
  match x, y with
  | .error a, .error b =>
      if h : a = b then isTrue (congrArg Except.error h)
      else isFalse (fun hh => h (by injection hh))
  | .ok a, .ok b =>
      if h : a = b then isTrue (congrArg Except.ok h)
      else isFalse (fun hh => h (by injection hh))
  | .error _, .ok _ => isFalse (fun hh => Except.noConfusion hh)
  | .ok _, .error _ => isFalse (fun hh => Except.noConfusion hh)

/-- One record of the prepared dataset: the four feature columns
`orbital_period`, `transit_duration`, `planet_radius`, `stellar_temp` and the
categorical `label` column.  `stellar_temp` is `Option`-valued because it is
the column the script imputes (`NaN` is `none`). -/
structure Row where
  orbital_period : ℚ
  transit_duration : ℚ
  planet_radius : ℚ
  stellar_temp : Option ℚ
  label : String
deriving Repr, DecidableEq, Inhabited

/-- The prepared data frame returned by `load_and_prepare`: its rows, plus a
flag recording whether the `stellar_temp` column exists at all (the script
branches on `'stellar_temp' in df.columns`). -/
structure DataFrame where
  hasStellarTemp : Bool
  rows : List Row
deriving Repr, DecidableEq

/-- The `FEATURES` constant of the script. -/
def FEATURES : List String :=
  ["orbital_period", "transit_duration", "planet_radius", "stellar_temp"]

/-- Median of a list of rationals in the sense of `pandas.Series.median`:
`NaN` entries are dropped by the caller, the remaining values are sorted and
the middle value (or the mean of the two middle values) is returned; on an
empty list pandas returns `NaN`, modelled as `none`. -/
def medianQ (l : List ℚ) : Option ℚ :=
  let s := l.insertionSort (· ≤ ·)
  let n := s.length
  if n = 0 then none
  else if n % 2 = 1 then some (s.getD (n / 2) 0)
  else some ((s.getD (n / 2 - 1) 0 + s.getD (n / 2) 0) / 2)

/-- The median of the non-missing `stellar_temp` values of a data frame
(`df['stellar_temp'].median()`). -/
def stellarMedian (df : DataFrame) : Option ℚ :=
  medianQ (df.rows.filterMap (·.stellar_temp))

/-- Lines 28-31 of the script: if the `stellar_temp` column exists, fill its
missing values with the column median (`fillna` with a `NaN` median leaves the
value missing, modelled by `Option.orElse` with a `none` fill value); if the
column is absent entirely, set it to the constant `0` for every row. -/
def fillStellarTemp (df : DataFrame) : DataFrame :=
  if df.hasStellarTemp then
    let m := stellarMedian df
    { hasStellarTemp := true
      rows := df.rows.map (fun r => { r with stellar_temp := r.stellar_temp.orElse (fun _ => m) }) }
  else
    { hasStellarTemp := true
      rows := df.rows.map (fun r => { r with stellar_temp := some 0 }) }

/-- The label column `y = df[TARGET]`. -/
def labels (df : DataFrame) : List String := df.rows.map (·.label)

/-- The number of distinct labels, `y.nunique()`. -/
def nunique (y : List String) : ℕ := y.dedup.length

/-- Lexicographic order on character lists by code point — the order Python
(and `numpy.unique`) sorts label strings in. -/
def charListLe : List Char → List Char → Bool
  | [], _ => true
  | _ :: _, [] => false
  | a :: as, b :: bs =>
    if a.toNat < b.toNat then true
    else if b.toNat < a.toNat then false
    else charListLe as bs

/-- Code-point lexicographic order on strings. -/
def strLe (a b : String) : Prop :=
  charListLe a.data b.data = true

instance : DecidableRel strLe := fun a b => by
  unfold strLe
  infer_instance

/-- The sorted list of distinct values of the label column, as computed by
`numpy.unique` / `sklearn.preprocessing.LabelEncoder.fit` (`classes_`). -/
def classesOf (y : List String) : List String :=
  y.dedup.insertionSort strLe

/-- The integer code a fitted `LabelEncoder` assigns to a label: its index in
the sorted list of distinct labels. -/
def encodeLabel (y : List String) (a : String) : ℕ :=
  (classesOf y).indexOf a

/-- The encoded label column `label_encoder.fit_transform(y)`. -/
def encodeAll (y : List String) : List ℕ :=
  y.map (encodeLabel y)

/-- The sorted list of distinct values of an integer column (`numpy.unique`
applied to the encoded labels). -/
def classesOfN (l : List ℕ) : List ℕ :=
  l.dedup.insertionSort (· ≤ ·)

/-- The `numpy.unique` rank of a value in an integer column. -/
def encodeN (l : List ℕ) (c : ℕ) : ℕ :=
  (classesOfN l).indexOf c

/-- An integer column replaced by the `numpy.unique` ranks of its values. -/
def encodeAllN (l : List ℕ) : List ℕ :=
  l.map (encodeN l)

/-- Mapping an integer code back to the original value,
`label_encoder.inverse_transform` on a single code. -/
def decodeLabel (cls : List String) (c : ℕ) : String :=
  cls.getD c ""

/-- The test-size argument passed to `train_test_split`: a fraction (Python
float) when the dataset is large, an absolute count (Python int) otherwise. -/
inductive TestSize where
  | frac (q : ℚ)
  | count (k : ℕ)
deriving Repr, DecidableEq

/-- Line 45 of the script:
`test_size = 0.2 if len(y) >= 50 else max(2, min(len(y) // 3, len(y) - 1))`.
Natural-number subtraction agrees with Python here: a negative `len(y) - 1`
can only arise for `len(y) = 0`, where both `min(0, -1) = -1` and
`min 0 0 = 0` are clamped to `2` by the outer `max`. -/
def testSizeOf (n : ℕ) : TestSize :=
  if 50 ≤ n then .frac (1/5) else .count (max 2 (min (n / 3) (n - 1)))

/-- Minimum of the per-class counts, `y.value_counts().min()`.  The fold is
seeded with `y.length`, which every class count is at most, so the seed never
wins while a class exists; for an empty column pandas yields `NaN`, which
fails the script's `>= 2` test just as the `0` produced here does. -/
def valueCountsMin (y : List String) : ℕ :=
  (y.dedup.map (fun s => y.count s)).foldr min y.length

/-- Line 46 of the script: stratify exactly when there are at least 2 classes,
every class has at least 2 members, and there are at least 10 samples. -/
def doStratify (y : List String) : Bool :=
  decide (2 ≤ nunique y) && decide (2 ≤ valueCountsMin y) && decide (10 ≤ y.length)

/-- A fractional sklearn `test_size` resolves to `ceil(test_size * n)` held-out
samples; an integer `test_size` is used as-is. -/
def resolveTestSize : TestSize → ℕ → ℕ
  | .frac q, n => (Rat.ceil (q * n)).toNat
  | .count k, _ => k

/-- A 32-bit mixing hash keyed by the random seed, used below to model the
seeded pseudo-random permutation drawn by `train_test_split`. -/
def shuffleKey (seed i : ℕ) : ℕ :=
  (seed * 2654435761 + i * 2246822519 + 3266489917) % 4294967296

/-- The sort key of an index in the seeded pseudo-random permutation: the
hash, with the index itself breaking hash ties. -/
def permKey (seed i : ℕ) : ℕ :=
  shuffleKey seed i * 4294967296 + i

/-- A deterministic pseudo-random permutation of a list of indices, keyed by
the seed: order the indices by their seeded sort key. -/
def permuteIdx (seed : ℕ) (l : List ℕ) : List ℕ :=
  l.insertionSort (fun i j => permKey seed i ≤ permKey seed j)

/-- The positions of a class inside the stratify column. -/
def classIndices (codes : List ℕ) (c : ℕ) : List ℕ :=
  (List.range codes.length).filter (fun i => codes.getD i 0 = c)

/-- Distribution of a remainder over per-class test allocations: one extra
held-out sample to each of the first `r` classes. -/
def assignRem : ℕ → List ℕ → List ℕ
  | _, [] => []
  | 0, l => l
  | r + 1, x :: xs => (x + 1) :: assignRem r xs

/-- Modelled from the library: `sklearn.model_selection.train_test_split`
(`shuffle=True`) selects held-out row positions as a deterministic function of
the random seed, the number of rows, the resolved test count, and — when
stratifying — the class partition of the stratify column (its values replaced
by their `numpy.unique` ranks).  Unstratified: a seeded permutation of all row
positions, first `tc` positions held out.  Stratified: per class, a seeded
permutation of that class's positions with a proportional share of the test
count held out (floor shares, remainder to the earliest classes).  Returns
`(train positions, test positions)`. -/
def splitIndices (seed n tc : ℕ) (strat : Option (List ℕ)) : List ℕ × List ℕ :=
  match strat with
  | none =>
      let p := permuteIdx seed (List.range n)
      (p.drop tc, p.take tc)
  | some codes =>
      let cs := classesOfN codes
      let groups := cs.map (fun c => permuteIdx seed (classIndices codes c))
      let base := groups.map (fun g => tc * g.length / n)
      let rem := tc - base.foldr (· + ·) 0
      let alloc := assignRem rem base
      let test := (groups.zip alloc).foldr (fun ga acc => ga.1.take ga.2 ++ acc) []
      let train := (groups.zip alloc).foldr (fun ga acc => ga.1.drop ga.2 ++ acc) []
      (train, test)

/-- The stratify argument of a `train_test_split` call on a string column,
reduced to the class partition it induces: `None` stays `none`, a column is
replaced by its `numpy.unique` codes (which is what stratified splitting
depends on). -/
def stratArg (doIt : Bool) (col : List String) : Option (List ℕ) :=
  if doIt then some (encodeAll col) else none

/-- The stratify argument of a `train_test_split` call on an integer column,
reduced to the class partition it induces. -/
def stratArgN (doIt : Bool) (col : List ℕ) : Option (List ℕ) :=
  if doIt then some (encodeAllN col) else none

/-- The result of the two `train_test_split` calls (lines 55-62): the feature
and string-label splits of the first call, and the encoded-label splits kept
from the second call. -/
structure SplitData where
  xTrain : List Row
  xTest : List Row
  yTrain : List String
  yTest : List String
  yTrainEnc : List ℕ
  yTestEnc : List ℕ
deriving Repr, DecidableEq

/-- Lines 45-62 of the script: compute the split parameters, then split `X`/`y`
stratified on `y`, and in a second call with identical parameters split the
encoded labels, stratified on `y_encoded` exactly when the first call
stratified. -/
def splitData (df : DataFrame) : SplitData :=
  let X := df.rows
  let y := labels df
  let yEnc := encodeAll y
  let n := y.length
  let tc := resolveTestSize (testSizeOf n) n
  let strat := doStratify y
  let idx1 := splitIndices 42 n tc (stratArg strat y)
  let idx2 := splitIndices 42 n tc (stratArgN strat yEnc)
  { xTrain := idx1.1.map (fun i => X.getD i default)
    xTest := idx1.2.map (fun i => X.getD i default)
    yTrain := idx1.1.map (fun i => y.getD i "")
    yTest := idx1.2.map (fun i => y.getD i "")
    yTrainEnc := idx2.1.map (fun i => yEnc.getD i 0)
    yTestEnc := idx2.2.map (fun i => yEnc.getD i 0) }

/-- The classifier of one pipeline, with the hyperparameters the script sets
(lines 67-111).  Every classifier carries the fixed `random_state = 42`. -/
inductive Classifier where
  | randomForest (nEstimators maxDepth randomState : ℕ)
  | svc (c : ℚ) (probability : Bool) (maxIter randomState : ℕ)
  | mlp (hidden1 hidden2 maxIter randomState : ℕ) (learningRateInit : ℚ)
  | xgboost (nEstimators maxDepth randomState : ℕ) (learningRate subsample colsampleBytree : ℚ)
deriving Repr, DecidableEq

/-- One entry of the `configs` dict: a `StandardScaler` step followed by a
classifier. -/
structure PipelineCfg where
  scaler : Bool
  clf : Classifier
deriving Repr, DecidableEq

/-- The `configs` dict of the script, in insertion (= iteration) order. -/
def configs : List (String × PipelineCfg) :=
  [("RandomForest", ⟨true, .randomForest 300 6 42⟩),
   ("SVM", ⟨true, .svc 3 true 300 42⟩),
   ("NeuralNet", ⟨true, .mlp 64 32 300 42 (1/10)⟩),
   ("XGBoost", ⟨true, .xgboost 300 6 42 (1/10) (4/5) (4/5)⟩)]

/-- Modelled from the libraries: fitting, prediction and serialization for the
scikit-learn / xgboost pipelines, as an abstract record of functions over an
opaque fitted-model type `μ`.  All members are deterministic functions of
their arguments — the libraries' documented behavior once every estimator is
constructed with a fixed `random_state`, which every entry of `configs` is.
`fitStr` fits on string labels, `fitNat` on integer-encoded labels; `predictNat`
returns integer class codes, which for a classifier fitted on codes drawn from
`0 .. k-1` are again codes seen in training.  `fit*` and `dump` may fail
(raise), modelling training and `pickle.dump` errors. -/
structure Oracle (μ : Type) where
  fitStr : PipelineCfg → List Row → List String → Except String μ
  fitNat : PipelineCfg → List Row → List ℕ → Except String μ
  predictStr : μ → List Row → List String
  predictNat : μ → List Row → List ℕ
  dump : String → μ → Except String Unit

/-- The `accuracy_score` metric: the fraction of positions where prediction
and truth agree exactly (0 on an empty test set, never reached here). -/
def accuracyScore (yTrue yPred : List String) : ℚ :=
  if yTrue.length = 0 then 0
  else ((yTrue.zip yPred).countP (fun p => p.1 = p.2) : ℚ) / yTrue.length

/-- A write to the models directory: a pickled artifact
`{'model': ..., 'features': FEATURES}` (plus `'label_encoder'` for XGBoost,
recorded as its `classes_` list), or the `BEST.txt` marker. -/
inductive Write (μ : Type) where
  | artifact (name : String) (features : List String) (labelClasses : Option (List String)) (model : μ)
  | bestMarker (content : String)
deriving DecidableEq

/-- Whether a write is the pickled artifact keyed by the given model name. -/
def isArtifactFor {μ : Type} (n : String) : Write μ → Bool
  | .artifact n2 _ _ _ => n2 == n
  | .bestMarker _ => false

/-- Lines 114-138, one iteration: fit the pipeline (encoded labels for
XGBoost, string labels otherwise), predict on the held-out rows (decoding
XGBoost's integer predictions through the label encoder), compute accuracy,
and serialize the artifact.  Returns the recorded accuracy and the artifact
write, or the first error raised. -/
def trainOne {μ : Type} (o : Oracle μ) (cls : List String) (sd : SplitData)
    (nc : String × PipelineCfg) : Except String (ℚ × Write μ) :=
  match (if nc.1 = "XGBoost" then o.fitNat nc.2 sd.xTrain sd.yTrainEnc
         else o.fitStr nc.2 sd.xTrain sd.yTrain) with
  | .error e => .error e
  | .ok m =>
    let acc := if nc.1 = "XGBoost" then
        accuracyScore sd.yTest ((o.predictNat m sd.xTest).map (decodeLabel cls))
      else accuracyScore sd.yTest (o.predictStr m sd.xTest)
    let w := Write.artifact nc.1 FEATURES (if nc.1 = "XGBoost" then some cls else none) m
    match o.dump nc.1 m with
    | .error e => .error e
    | .ok _ => .ok (acc, w)

/-- The `for name, model in configs.items()` loop: models are processed in
iteration order; each model's artifact is written after its own fit and
evaluation succeed; the first error aborts the loop, keeping the writes
already made and losing the in-progress results dict. -/
def runLoop {μ : Type} (o : Oracle μ) (cls : List String) (sd : SplitData) :
    List (String × PipelineCfg) → List (Write μ) × Except String (List (String × ℚ))
  | [] => ([], .ok [])
  | nc :: rest =>
    match trainOne o cls sd nc with
    | .error e => ([], .error e)
    | .ok (acc, w) =>
      let r := runLoop o cls sd rest
      (w :: r.1, r.2.map (fun rs => (nc.1, acc) :: rs))

/-- Python's `max(results.items(), key=lambda kv: kv[1]['accuracy'])`: fold
keeping the current maximum, replacing it only on a strictly greater
accuracy — so the first maximum in iteration order wins. -/
def maxByAcc (best : String × ℚ) : List (String × ℚ) → String × ℚ
  | [] => best
  | kv :: rest => maxByAcc (if kv.2 > best.2 then kv else best) rest

/-- Line 141: the name of the best configuration (`max` raises on an empty
dict, modelled as `none`; the loop always yields four results). -/
def selectBest : List (String × ℚ) → Option String
  | [] => none
  | kv :: rest => some (maxByAcc kv rest).1

set_option linter.unusedVariables false in
/-- The `train_all` function, lines 22-151.  `ambientEntropy` models the
process-level entropy numpy would draw on if any estimator were left
unseeded; the script passes `random_state = 42` everywhere, so it is unused.
Returns the writes made to the models directory in order, and either the
results mapping or the error raised. -/
def trainAll {μ : Type} (o : Oracle μ) (ambientEntropy : ℕ) (df : DataFrame) :
    List (Write μ) × Except String (List (String × ℚ)) :=
  let prepared := fillStellarTemp df
  let y := labels prepared
  let cls := classesOf y
  if y.length < 4 then
    ([], .error "Dataset must contain at least 4 samples to train and test models.")
  else if nunique y < 2 then
    ([], .error "Dataset must contain at least two classes to train a classifier.")
  else
    let sd := splitData prepared
    let r := runLoop o cls sd configs
    match r.2 with
    | .error e => (r.1, .error e)
    | .ok results =>
      match selectBest results with
      | none => (r.1, .error "max() arg is an empty sequence")
      | some best => (r.1 ++ [Write.bestMarker best], .ok results)

/-- A concrete trivial oracle over `Unit`, used to instantiate theorems about
`trainAll` at concrete inputs. -/
def trivialOracle : Oracle Unit where
  fitStr := fun _ _ _ => .ok ()
  fitNat := fun _ _ _ => .ok ()
  predictStr := fun _ xs => xs.map (fun _ => "")
  predictNat := fun _ xs => xs.map (fun _ => 0)
  dump := fun _ _ => .ok ()

/-- A concrete oracle over `Unit` whose serialization step fails for the
model named `SVM`, used to instantiate the failure-behavior theorem. -/
def failingDumpOracle : Oracle Unit where
  fitStr := fun _ _ _ => .ok ()
  fitNat := fun _ _ _ => .ok ()
  predictStr := fun _ xs => xs.map (fun _ => "")
  predictNat := fun _ xs => xs.map (fun _ => 0)
  dump := fun n _ => if n = "SVM" then .error "disk full" else .ok ()

/-! ### Helper lemmas -/

theorem labels_fillStellarTemp (df : DataFrame) :
    labels (fillStellarTemp df) = labels df := by
  unfold labels fillStellarTemp
  cases h : df.hasStellarTemp <;> simp [h, List.map_map]

theorem length_labels (df : DataFrame) : (labels df).length = df.rows.length := by
  simp [labels]

theorem le_foldr_min (c b : ℕ) (l : List ℕ) :
    c ≤ l.foldr min b ↔ c ≤ b ∧ ∀ x ∈ l, c ≤ x := by
  induction l with
  | nil => simp
  | cons a t ih =>
      simp only [List.foldr_cons, le_min_iff, ih, List.mem_cons]
      constructor
      · rintro ⟨ha, hb, ht⟩
        exact ⟨hb, fun x hx => hx.elim (fun h => h ▸ ha) (ht x)⟩
      · rintro ⟨hb, hx⟩
        exact ⟨hx a (Or.inl rfl), hb, fun x hx2 => hx x (Or.inr hx2)⟩

theorem min_valueCounts_iff (y : List String) :
    2 ≤ valueCountsMin y ↔ 2 ≤ y.length ∧ ∀ s ∈ y, 2 ≤ y.count s := by
  unfold valueCountsMin
  rw [le_foldr_min]
  constructor
  · rintro ⟨hl, hc⟩
    refine ⟨hl, fun s hs => hc _ (List.mem_map.2 ⟨s, List.mem_dedup.2 hs, rfl⟩)⟩
  · rintro ⟨hl, hc⟩
    refine ⟨hl, fun x hx => ?_⟩
    obtain ⟨s, hs, rfl⟩ := List.mem_map.1 hx
    exact hc s (List.mem_dedup.1 hs)

theorem getD_of_lt {α : Type} (l : List α) (d : α) (i : ℕ) (h : i < l.length) :
    l.getD i d = l.get ⟨i, h⟩ := by
  simp [List.getD_eq_getElem?_getD, List.getElem?_eq_getElem h]

theorem mem_classesOf {y : List String} {a : String} : a ∈ classesOf y ↔ a ∈ y := by
  simp [classesOf, List.mem_insertionSort, List.mem_dedup]

theorem nodup_classesOf (y : List String) : (classesOf y).Nodup :=
  (List.perm_insertionSort strLe y.dedup).nodup_iff.2 (List.nodup_dedup y)

theorem mem_classesOfN {l : List ℕ} {c : ℕ} : c ∈ classesOfN l ↔ c ∈ l := by
  simp [classesOfN, List.mem_insertionSort, List.mem_dedup]

theorem nodup_classesOfN (l : List ℕ) : (classesOfN l).Nodup :=
  (List.perm_insertionSort _ l.dedup).nodup_iff.2 (List.nodup_dedup l)

theorem encodeAll_lt (y : List String) : ∀ c ∈ encodeAll y, c < (classesOf y).length := by
  intro c hc
  obtain ⟨a, ha, rfl⟩ := List.mem_map.1 hc
  exact List.indexOf_lt_length.2 (mem_classesOf.2 ha)

theorem encodeAll_surj (y : List String) :
    ∀ j, j < (classesOf y).length → j ∈ encodeAll y := by
  intro j hj
  have hmem : (classesOf y).get ⟨j, hj⟩ ∈ y := mem_classesOf.1 (List.get_mem _ _ _)
  refine List.mem_map.2 ⟨(classesOf y).get ⟨j, hj⟩, hmem, ?_⟩
  exact List.get_indexOf (nodup_classesOf y) ⟨j, hj⟩

theorem classesOfN_encodeAll (y : List String) :
    classesOfN (encodeAll y) = List.range (classesOf y).length := by
  apply List.eq_of_perm_of_sorted (r := (· ≤ ·))
  · refine (List.perm_ext_iff_of_nodup (nodup_classesOfN _) (List.nodup_range _)).2 ?_
    intro c
    rw [mem_classesOfN, List.mem_range]
    exact ⟨encodeAll_lt y c, encodeAll_surj y c⟩
  · exact List.sorted_insertionSort _ _
  · exact List.pairwise_le_range _

theorem indexOf_range {k c : ℕ} (h : c < k) : (List.range k).indexOf c = c := by
  have hh := List.get_indexOf (List.nodup_range k)
    (⟨c, by simpa using h⟩ : Fin (List.range k).length)
  simpa using hh

theorem encodeAllN_encodeAll (y : List String) :
    encodeAllN (encodeAll y) = encodeAll y := by
  unfold encodeAllN
  calc (encodeAll y).map (encodeN (encodeAll y))
      = (encodeAll y).map (fun c => (List.range (classesOf y).length).indexOf c) := by
        apply List.map_congr_left
        intro c _
        unfold encodeN
        rw [classesOfN_encodeAll]
    _ = (encodeAll y).map id := by
        apply List.map_congr_left
        intro c hc
        exact indexOf_range (encodeAll_lt y c hc)
    _ = encodeAll y := List.map_id _

theorem mem_permuteIdx {seed : ℕ} {l : List ℕ} {i : ℕ} : i ∈ permuteIdx seed l ↔ i ∈ l := by
  simp [permuteIdx, List.mem_insertionSort]

theorem mem_foldr_take {l : List (List ℕ × ℕ)} {i : ℕ}
    (h : i ∈ l.foldr (fun ga acc => ga.1.take ga.2 ++ acc) []) : ∃ ga ∈ l, i ∈ ga.1 := by
  induction l with
  | nil => cases h
  | cons ga t ih =>
      rcases List.mem_append.1 h with h1 | h2
      · exact ⟨ga, List.mem_cons_self _ _, List.mem_of_mem_take h1⟩
      · obtain ⟨ga2, hga2, hi⟩ := ih h2
        exact ⟨ga2, List.mem_cons_of_mem _ hga2, hi⟩

theorem mem_foldr_drop {l : List (List ℕ × ℕ)} {i : ℕ}
    (h : i ∈ l.foldr (fun ga acc => ga.1.drop ga.2 ++ acc) []) : ∃ ga ∈ l, i ∈ ga.1 := by
  induction l with
  | nil => cases h
  | cons ga t ih =>
      rcases List.mem_append.1 h with h1 | h2
      · exact ⟨ga, List.mem_cons_self _ _, List.mem_of_mem_drop h1⟩
      · obtain ⟨ga2, hga2, hi⟩ := ih h2
        exact ⟨ga2, List.mem_cons_of_mem _ hga2, hi⟩

theorem mem_classIndices {codes : List ℕ} {c i : ℕ} (h : i ∈ classIndices codes c) :
    i < codes.length := by
  have := List.mem_filter.1 h
  simpa using List.mem_range.1 this.1

theorem splitIndices_lt (seed n tc : ℕ) (strat : Option (List ℕ))
    (hlen : ∀ codes, strat = some codes → codes.length = n) :
    (∀ i ∈ (splitIndices seed n tc strat).1, i < n) ∧
    (∀ i ∈ (splitIndices seed n tc strat).2, i < n) := by
  cases strat with
  | none =>
      constructor
      · intro i hi
        simp only [splitIndices] at hi
        have := mem_permuteIdx.1 (List.mem_of_mem_drop hi)
        exact List.mem_range.1 this
      · intro i hi
        simp only [splitIndices] at hi
        have := mem_permuteIdx.1 (List.mem_of_mem_take hi)
        exact List.mem_range.1 this
  | some codes =>
      have hcn := hlen codes rfl
      constructor
      · intro i hi
        simp only [splitIndices] at hi
        obtain ⟨ga, hga, hig⟩ := mem_foldr_drop hi
        obtain ⟨hga1, _⟩ := List.of_mem_zip hga
        obtain ⟨c, _, hc⟩ := List.mem_map.1 hga1
        rw [← hc] at hig
        exact hcn ▸ mem_classIndices (mem_permuteIdx.1 hig)
      · intro i hi
        simp only [splitIndices] at hi
        obtain ⟨ga, hga, hig⟩ := mem_foldr_take hi
        obtain ⟨hga1, _⟩ := List.of_mem_zip hga
        obtain ⟨c, _, hc⟩ := List.mem_map.1 hga1
        rw [← hc] at hig
        exact hcn ▸ mem_classIndices (mem_permuteIdx.1 hig)

theorem getD_map_encode (y : List String) (i : ℕ) (h : i < y.length) :
    (encodeAll y).getD i 0 = encodeLabel y (y.getD i "") := by
  have h2 : i < (encodeAll y).length := by
    simpa [encodeAll] using h
  rw [getD_of_lt _ _ _ h2, getD_of_lt _ _ _ h]
  simp [encodeAll]

theorem maxByAcc_first_max (l : List (String × ℚ)) :
    ∀ p : String × ℚ, ∃ l1 l2, p :: l = l1 ++ maxByAcc p l :: l2 ∧
      (∀ q ∈ l1, q.2 < (maxByAcc p l).2) ∧
      (∀ q ∈ p :: l, q.2 ≤ (maxByAcc p l).2) := by
  induction l with
  | nil =>
      intro p
      exact ⟨[], [], rfl, by simp, by simp [maxByAcc]⟩
  | cons q rest ih =>
      intro p
      by_cases hq : q.2 > p.2
      · have hm : maxByAcc p (q :: rest) = maxByAcc q rest := by
          simp [maxByAcc, hq]
        obtain ⟨l1, l2, heq, hstrict, hle⟩ := ih q
        rw [hm]
        refine ⟨p :: l1, l2, ?_, ?_, ?_⟩
        · rw [List.cons_append, ← heq]
        · intro x hx
          rcases List.mem_cons.1 hx with rfl | hx
          · exact lt_of_lt_of_le hq (hle q (List.mem_cons_self q rest))
          · exact hstrict x hx
        · intro x hx
          rcases List.mem_cons.1 hx with rfl | hx
          · exact le_of_lt (lt_of_lt_of_le hq (hle q (List.mem_cons_self q rest)))
          · exact hle x hx
      · have hm : maxByAcc p (q :: rest) = maxByAcc p rest := by
          simp [maxByAcc, hq]
        obtain ⟨l1, l2, heq, hstrict, hle⟩ := ih p
        rw [hm]
        cases l1 with
        | nil =>
            rw [List.nil_append] at heq
            injection heq with h1 h2
            refine ⟨[], q :: rest, ?_, by simp, ?_⟩
            · rw [List.nil_append, ← h1]
            · intro x hx
              rcases List.mem_cons.1 hx with rfl | hx
              · rw [← h1]
              · rcases List.mem_cons.1 hx with rfl | hx
                · rw [← h1]
                  exact le_of_not_lt hq
                · exact hle x (List.mem_cons_of_mem p hx)
        | cons a t =>
            rw [List.cons_append] at heq
            injection heq with h1 h2
            refine ⟨p :: q :: t, l2, ?_, ?_, ?_⟩
            · rw [List.cons_append, List.cons_append, ← h2]
            · intro x hx
              rcases List.mem_cons.1 hx with rfl | hx
              · exact hstrict x (h1 ▸ List.mem_cons_self a t)
              · rcases List.mem_cons.1 hx with rfl | hx
                · exact lt_of_le_of_lt (le_of_not_lt hq)
                    (hstrict p (h1 ▸ List.mem_cons_self a t))
                · exact hstrict x (List.mem_cons_of_mem a hx)
            · intro x hx
              rcases List.mem_cons.1 hx with rfl | hx
              · exact hle x (List.mem_cons_self x rest)
              · rcases List.mem_cons.1 hx with rfl | hx
                · exact le_trans (le_of_not_lt hq) (hle p (List.mem_cons_self p rest))
                · exact hle x (List.mem_cons_of_mem p hx)

theorem selectBest_first_max (l : List (String × ℚ)) (hne : l ≠ []) :
    ∃ best acc l1 l2, selectBest l = some best ∧ l = l1 ++ (best, acc) :: l2 ∧
      (∀ q ∈ l1, q.2 < acc) ∧ (∀ q ∈ l, q.2 ≤ acc) := by
  cases l with
  | nil => exact absurd rfl hne
  | cons p rest =>
      obtain ⟨l1, l2, heq, hstrict, hle⟩ := maxByAcc_first_max rest p
      exact ⟨(maxByAcc p rest).1, (maxByAcc p rest).2, l1, l2, rfl, by simpa using heq,
        hstrict, hle⟩

theorem runLoop_ok_names {μ : Type} (o : Oracle μ) (cls : List String) (sd : SplitData) :
    ∀ (cfgs : List (String × PipelineCfg)) (ws : List (Write μ)) (rs : List (String × ℚ)),
      runLoop o cls sd cfgs = (ws, .ok rs) →
      rs.map (fun r => r.1) = cfgs.map (fun c => c.1) := by
  intro cfgs
  induction cfgs with
  | nil =>
      intro ws rs h
      simp only [runLoop, Prod.mk.injEq, Except.ok.injEq] at h
      rw [← h.2]
      rfl
  | cons nc rest ih =>
      intro ws rs h
      simp only [runLoop] at h
      split at h
      · exact absurd (congrArg Prod.snd h) (by simp)
      · rename_i acc w htr
        cases hr2 : (runLoop o cls sd rest).2 with
        | error e =>
            rw [hr2] at h
            exact absurd (congrArg Prod.snd h) (by simp [Except.map])
        | ok v =>
            rw [hr2] at h
            simp only [Except.map, Prod.mk.injEq, Except.ok.injEq] at h
            obtain ⟨hws, hrs⟩ := h
            subst hrs
            have hrest : runLoop o cls sd rest = ((runLoop o cls sd rest).1, .ok v) := by
              rw [← hr2]
            simp [ih _ _ hrest]

theorem runLoop_cons_ok {μ : Type} (o : Oracle μ) (cls : List String) (sd : SplitData)
    (nc : String × PipelineCfg) (rest : List (String × PipelineCfg))
    (ws : List (Write μ)) (rs : List (String × ℚ))
    (h : runLoop o cls sd (nc :: rest) = (ws, .ok rs)) :
    ∃ acc w ws2 rs2, trainOne o cls sd nc = .ok (acc, w) ∧
      runLoop o cls sd rest = (ws2, .ok rs2) ∧
      ws = w :: ws2 ∧ rs = (nc.1, acc) :: rs2 := by
  simp only [runLoop] at h
  split at h
  · exact absurd (congrArg Prod.snd h) (by simp)
  · rename_i acc w htr
    cases hr2 : (runLoop o cls sd rest).2 with
    | error e =>
        rw [hr2] at h
        exact absurd (congrArg Prod.snd h) (by simp [Except.map])
    | ok v =>
        rw [hr2] at h
        simp only [Except.map, Prod.mk.injEq, Except.ok.injEq] at h
        exact ⟨acc, w, (runLoop o cls sd rest).1, v, htr, by rw [← hr2], h.1.symm, h.2.symm⟩

theorem runLoop_cons_of_error {μ : Type} (o : Oracle μ) (cls : List String) (sd : SplitData)
    (nc : String × PipelineCfg) (rest : List (String × PipelineCfg)) (e : String)
    (hfail : trainOne o cls sd nc = .error e) :
    runLoop o cls sd (nc :: rest) = ([], .error e) := by
  simp only [runLoop, hfail]

theorem runLoop_cons_of_ok {μ : Type} (o : Oracle μ) (cls : List String) (sd : SplitData)
    (nc : String × PipelineCfg) (rest : List (String × PipelineCfg)) (acc : ℚ) (w : Write μ)
    (htr : trainOne o cls sd nc = .ok (acc, w)) :
    runLoop o cls sd (nc :: rest) =
      (w :: (runLoop o cls sd rest).1,
       (runLoop o cls sd rest).2.map (fun rs => (nc.1, acc) :: rs)) := by
  simp only [runLoop, htr]

theorem trainOne_ok_artifact {μ : Type} (o : Oracle μ) (cls : List String) (sd : SplitData)
    (nc : String × PipelineCfg) (acc : ℚ) (w : Write μ)
    (h : trainOne o cls sd nc = .ok (acc, w)) :
    ∃ m, w = Write.artifact nc.1 FEATURES
      (if nc.1 = "XGBoost" then some cls else none) m := by
  simp only [trainOne] at h
  split at h
  · exact Except.noConfusion h
  · rename_i m hm
    split at h
    · exact Except.noConfusion h
    · injection h with hh
      exact ⟨m, (congrArg Prod.snd hh).symm⟩

theorem runLoop_configs_shape {μ : Type} (o : Oracle μ) (cls : List String) (sd : SplitData)
    (ws : List (Write μ)) (rs : List (String × ℚ))
    (h : runLoop o cls sd configs = (ws, .ok rs)) :
    ∃ m1 m2 m3 m4 a1 a2 a3 a4,
      ws = [Write.artifact "RandomForest" FEATURES none m1,
            Write.artifact "SVM" FEATURES none m2,
            Write.artifact "NeuralNet" FEATURES none m3,
            Write.artifact "XGBoost" FEATURES (some cls) m4] ∧
      rs = [("RandomForest", a1), ("SVM", a2), ("NeuralNet", a3), ("XGBoost", a4)] := by
  simp only [configs] at h
  obtain ⟨a1, w1, ws1, rs1, ht1, h1, hw1, hr1⟩ := runLoop_cons_ok o cls sd _ _ _ _ h
  obtain ⟨a2, w2, ws2, rs2, ht2, h2, hw2, hr2⟩ := runLoop_cons_ok o cls sd _ _ _ _ h1
  obtain ⟨a3, w3, ws3, rs3, ht3, h3, hw3, hr3⟩ := runLoop_cons_ok o cls sd _ _ _ _ h2
  obtain ⟨a4, w4, ws4, rs4, ht4, h4, hw4, hr4⟩ := runLoop_cons_ok o cls sd _ _ _ _ h3
  simp only [runLoop, Prod.mk.injEq, Except.ok.injEq] at h4
  obtain ⟨m1, hm1⟩ := trainOne_ok_artifact o cls sd _ _ _ ht1
  obtain ⟨m2, hm2⟩ := trainOne_ok_artifact o cls sd _ _ _ ht2
  obtain ⟨m3, hm3⟩ := trainOne_ok_artifact o cls sd _ _ _ ht3
  obtain ⟨m4, hm4⟩ := trainOne_ok_artifact o cls sd _ _ _ ht4
  refine ⟨m1, m2, m3, m4, a1, a2, a3, a4, ?_, ?_⟩
  · rw [hw1, hw2, hw3, hw4, ← h4.1, hm1, hm2, hm3, hm4]
    norm_num
    exact ⟨fun hc => absurd hc (by decide), fun hc => absurd hc (by decide),
      fun hc => absurd hc (by decide)⟩
  · rw [hr1, hr2, hr3, hr4, ← h4.2]

theorem trainAll_ok_shape {μ : Type} (o : Oracle μ) (e : ℕ) (df : DataFrame)
    (ws : List (Write μ)) (results : List (String × ℚ))
    (h : trainAll o e df = (ws, .ok results)) :
    ∃ ws0 best,
      runLoop o (classesOf (labels (fillStellarTemp df))) (splitData (fillStellarTemp df))
        configs = (ws0, .ok results) ∧
      selectBest results = some best ∧
      ws = ws0 ++ [Write.bestMarker best] := by
  simp only [trainAll] at h
  split at h
  · exact absurd (congrArg Prod.snd h) (by simp)
  · split at h
    · exact absurd (congrArg Prod.snd h) (by simp)
    · set r := runLoop o (classesOf (labels (fillStellarTemp df)))
        (splitData (fillStellarTemp df)) configs with hr
      split at h
      · exact absurd (congrArg Prod.snd h) (by simp_all)
      · rename_i rs hrs
        split at h
        · exact absurd (congrArg Prod.snd h) (by simp)
        · rename_i best hbest
          have h1 := congrArg Prod.fst h
          have h2 := congrArg Prod.snd h
          simp only [Except.ok.injEq] at h2
          subst h2
          refine ⟨r.1, best, ?_, hbest, h1.symm⟩
          rw [← hrs]

/-! ### Claim theorems -/

/-- C2: with at least 50 samples `train_all` uses the fixed test fraction 0.2
(= 1/5); with fewer, the test count is `max 2 (min (n / 3) (n - 1))`; in
particular a 9-row dataset gets a test size of exactly 3. -/
theorem testSize_policy (n : ℕ) :
    (50 ≤ n → testSizeOf n = .frac (1/5)) ∧
    (n < 50 → testSizeOf n = .count (max 2 (min (n / 3) (n - 1)))) ∧
    testSizeOf 9 = .count 3 := by
  refine ⟨fun h => ?_, fun h => ?_, by decide⟩
  · rw [testSizeOf, if_pos h]
  · rw [testSizeOf, if_neg (by omega)]

/-- Witness for C2 at concrete sizes 100 and 9. -/
theorem testSize_policy_witness :
    testSizeOf 100 = .frac (1/5) ∧ testSizeOf 9 = .count (max 2 (min 3 8)) :=
  ⟨(testSize_policy 100).1 (by decide), (testSize_policy 9).2.1 (by decide)⟩

/-- C3: the split is stratified exactly when the label column has at least 2
distinct classes, every class has at least 2 members, and there are at least
10 samples; in particular a class with fewer than 2 members disables
stratification regardless of the total row count. -/
theorem stratify_condition (y : List String) :
    (doStratify y = true ↔
      2 ≤ nunique y ∧ (∀ s ∈ y, 2 ≤ y.count s) ∧ 10 ≤ y.length) ∧
    ((∃ s ∈ y, y.count s < 2) → doStratify y = false) := by
  have main : doStratify y = true ↔
      2 ≤ nunique y ∧ (∀ s ∈ y, 2 ≤ y.count s) ∧ 10 ≤ y.length := by
    simp only [doStratify, Bool.and_eq_true, decide_eq_true_eq]
    rw [min_valueCounts_iff]
    constructor
    · rintro ⟨⟨h1, _, h2⟩, h3⟩
      exact ⟨h1, h2, h3⟩
    · rintro ⟨h1, h2, h3⟩
      exact ⟨⟨h1, by omega, h2⟩, h3⟩
  refine ⟨main, ?_⟩
  rintro ⟨s, hs, hc⟩
  cases h : doStratify y with
  | false => rfl
  | true => exact absurd ((main.1 h).2.1 s hs) (by omega)

/-- Witness for C3: a 12-row column with a singleton class is unstratified,
and a balanced 10-row two-class column is stratified. -/
theorem stratify_condition_witness :
    doStratify ["a", "a", "a", "a", "a", "a", "a", "a", "a", "a", "a", "b"] = false ∧
    doStratify ["a", "a", "a", "a", "a", "b", "b", "b", "b", "b"] = true := by
  constructor
  · exact (stratify_condition _).2 ⟨"b", by decide, by decide⟩
  · exact (stratify_condition _).1.2 ⟨by decide, by decide, by decide⟩

/-- C6: imputation replaces each missing `stellar_temp` by the column median
(a fully missing column stays missing, the median itself being missing),
creates a constant-0 column when `stellar_temp` is absent, and leaves the
other three feature columns and the label untouched, row for row. -/
theorem fill_stellar_temp_spec (df : DataFrame) :
    (fillStellarTemp df).rows.length = df.rows.length ∧
    ∀ (i : ℕ) (r : Row), df.rows[i]? = some r →
      ∃ r2, (fillStellarTemp df).rows[i]? = some r2 ∧
        r2.orbital_period = r.orbital_period ∧
        r2.transit_duration = r.transit_duration ∧
        r2.planet_radius = r.planet_radius ∧
        r2.label = r.label ∧
        (df.hasStellarTemp = true →
          r2.stellar_temp =
            (match r.stellar_temp with
             | some v => some v
             | none => stellarMedian df)) ∧
        (df.hasStellarTemp = false → r2.stellar_temp = some 0) := by
  cases h : df.hasStellarTemp with
  | true =>
      refine ⟨by simp [fillStellarTemp, h], fun i r hr => ?_⟩
      refine ⟨{ r with stellar_temp := r.stellar_temp.orElse (fun _ => stellarMedian df) },
        by simp [fillStellarTemp, h, List.getElem?_map, hr], rfl, rfl, rfl, rfl,
        fun _ => ?_, fun hf => absurd hf (by decide)⟩
      cases r.stellar_temp <;> rfl
  | false =>
      refine ⟨by simp [fillStellarTemp, h], fun i r hr => ?_⟩
      exact ⟨{ r with stellar_temp := some 0 },
        by simp [fillStellarTemp, h, List.getElem?_map, hr], rfl, rfl, rfl, rfl,
        fun ht => absurd ht (by decide), fun _ => rfl⟩

/-- Witness for C6 on a concrete two-row frame with one missing value. -/
theorem fill_stellar_temp_spec_witness :
    ∃ r2, (fillStellarTemp
        ⟨true, [⟨1, 2, 3, none, "a"⟩, ⟨4, 5, 6, some 10, "b"⟩]⟩).rows[0]? = some r2 ∧
      r2.orbital_period = 1 ∧ r2.transit_duration = 2 ∧ r2.planet_radius = 3 ∧
      r2.label = "a" ∧
      (true = true → r2.stellar_temp =
        (match (none : Option ℚ) with
         | some v => some v
         | none => stellarMedian ⟨true, [⟨1, 2, 3, none, "a"⟩, ⟨4, 5, 6, some 10, "b"⟩]⟩)) ∧
      (true = false → r2.stellar_temp = some 0) :=
  (fill_stellar_temp_spec ⟨true, [⟨1, 2, 3, none, "a"⟩, ⟨4, 5, 6, some 10, "b"⟩]⟩).2
    0 ⟨1, 2, 3, none, "a"⟩ rfl

/-- C4: after a successful run the best-model marker is the last write and
names the configuration with the highest recorded accuracy; with ties, the
first maximum in the deterministic iteration order RandomForest, SVM,
NeuralNet, XGBoost — the results list carries exactly these four names in
this order, the marker name occurs in it with accuracy `acc`, every earlier
entry has strictly smaller accuracy, and no entry exceeds `acc`. -/
theorem best_marker_first_max {μ : Type} (o : Oracle μ) (e : ℕ) (df : DataFrame)
    (ws : List (Write μ)) (results : List (String × ℚ))
    (h : trainAll o e df = (ws, .ok results)) :
    ∃ best acc l1 l2,
      ws.getLast? = some (Write.bestMarker best) ∧
      results.map (fun r => r.1) = ["RandomForest", "SVM", "NeuralNet", "XGBoost"] ∧
      results = l1 ++ (best, acc) :: l2 ∧
      (∀ q ∈ l1, q.2 < acc) ∧ (∀ q ∈ results, q.2 ≤ acc) := by
  obtain ⟨ws0, best, hrl, hsb, hws⟩ := trainAll_ok_shape o e df ws results h
  have hnames := runLoop_ok_names o _ _ configs ws0 results hrl
  have hne : results ≠ [] := by
    intro hh
    rw [hh] at hnames
    simp [configs] at hnames
  obtain ⟨b2, acc, l1, l2, hsb2, hdecomp, hstrict, hle⟩ := selectBest_first_max results hne
  have hbb : b2 = best := by
    rw [hsb] at hsb2
    injection hsb2 with hh
    exact hh.symm
  refine ⟨best, acc, l1, l2, ?_, ?_, hbb ▸ hdecomp, hstrict, hle⟩
  · rw [hws]
    simp
  · rw [hnames]
    rfl

/-- Witness for C4 on a concrete 4-row two-class frame: the trivial oracle
makes XGBoost the unique maximum (accuracy 1/2 against 0). -/
theorem best_marker_first_max_witness :
    ∃ best acc l1 l2,
      ([Write.artifact "RandomForest" FEATURES none (),
        Write.artifact "SVM" FEATURES none (),
        Write.artifact "NeuralNet" FEATURES none (),
        Write.artifact "XGBoost" FEATURES (some ["a", "b"]) (),
        Write.bestMarker "XGBoost"] : List (Write Unit)).getLast?
          = some (Write.bestMarker best) ∧
      ([("RandomForest", (0 : ℚ)), ("SVM", 0), ("NeuralNet", 0), ("XGBoost", 1/2)].map
        (fun r => r.1)) = ["RandomForest", "SVM", "NeuralNet", "XGBoost"] ∧
      [("RandomForest", (0 : ℚ)), ("SVM", 0), ("NeuralNet", 0), ("XGBoost", 1/2)]
        = l1 ++ (best, acc) :: l2 ∧
      (∀ q ∈ l1, q.2 < acc) ∧
      (∀ q ∈ [("RandomForest", (0 : ℚ)), ("SVM", 0), ("NeuralNet", 0), ("XGBoost", 1/2)],
        q.2 ≤ acc) :=
  best_marker_first_max trivialOracle 0
    ⟨true, [⟨1, 1, 1, some 1, "a"⟩, ⟨2, 2, 2, some 2, "a"⟩,
            ⟨3, 3, 3, some 3, "b"⟩, ⟨4, 4, 4, some 4, "b"⟩]⟩
    _ _ (by with_unfolding_all decide)

/-- C5: the gradient-boosted pipeline is fitted on the integer-encoded
training labels, its integer predictions on the held-out rows are decoded
through the label encoder before the accuracy is computed, and — whenever
the predicted codes are codes of fitted classes, which the library guarantees
for a classifier trained on codes `0 .. k-1` — every decoded prediction is a
member of the original label column, never a raw integer code. -/
theorem xgboost_encoded_fit_decoded_scoring {μ : Type} (o : Oracle μ) (y : List String)
    (sd : SplitData) (cfg : PipelineCfg) (m : μ)
    (hfit : o.fitNat cfg sd.xTrain sd.yTrainEnc = .ok m)
    (hdump : o.dump "XGBoost" m = .ok ()) :
    trainOne o (classesOf y) sd ("XGBoost", cfg) =
      .ok (accuracyScore sd.yTest
            ((o.predictNat m sd.xTest).map (decodeLabel (classesOf y))),
          Write.artifact "XGBoost" FEATURES (some (classesOf y)) m) ∧
    ∀ codes : List ℕ, (∀ c ∈ codes, c < (classesOf y).length) →
      ∀ s ∈ codes.map (decodeLabel (classesOf y)), s ∈ y := by
  constructor
  · simp [trainOne, hfit, hdump]
  · intro codes hb s hs
    obtain ⟨c, hc, rfl⟩ := List.mem_map.1 hs
    have hlt := hb c hc
    have hmem : decodeLabel (classesOf y) c ∈ classesOf y := by
      unfold decodeLabel
      rw [getD_of_lt _ _ _ hlt]
      exact List.get_mem _ _ _
    exact mem_classesOf.1 hmem

/-- Witness for C5 with the trivial oracle, labels `["a", "b"]` and the codes
`[0, 1]`. -/
theorem xgboost_encoded_fit_decoded_scoring_witness :
    trainOne trivialOracle (classesOf ["a", "b"]) ⟨[], [], [], [], [], []⟩
      ("XGBoost", ⟨true, .xgboost 300 6 42 (1/10) (4/5) (4/5)⟩) =
      .ok (accuracyScore (⟨[], [], [], [], [], []⟩ : SplitData).yTest
            ((trivialOracle.predictNat ()
              (⟨[], [], [], [], [], []⟩ : SplitData).xTest).map
                (decodeLabel (classesOf ["a", "b"]))),
          Write.artifact "XGBoost" FEATURES (some (classesOf ["a", "b"])) ()) ∧
    ∀ s ∈ [0, 1].map (decodeLabel (classesOf ["a", "b"])), s ∈ ["a", "b"] := by
  have h := xgboost_encoded_fit_decoded_scoring trivialOracle ["a", "b"]
    ⟨[], [], [], [], [], []⟩ ⟨true, .xgboost 300 6 42 (1/10) (4/5) (4/5)⟩ () rfl rfl
  exact ⟨h.1, h.2 [0, 1] (by with_unfolding_all decide)⟩

/-- C7: after a successful run there is, for each of the four model names,
exactly one artifact keyed by that name among the writes; it packages the
fitted pipeline with the feature list `FEATURES`, and carries the label-code
mapping (the encoder classes) exactly when the name is XGBoost. -/
theorem artifact_per_model {μ : Type} (o : Oracle μ) (e : ℕ) (df : DataFrame)
    (ws : List (Write μ)) (results : List (String × ℚ))
    (h : trainAll o e df = (ws, .ok results)) :
    ∀ n ∈ ["RandomForest", "SVM", "NeuralNet", "XGBoost"],
      ∃ m, ws.filter (isArtifactFor n) =
        [Write.artifact n FEATURES
          (if n = "XGBoost" then some (classesOf (labels df)) else none) m] := by
  obtain ⟨ws0, best, hrl, hsb, hws⟩ := trainAll_ok_shape o e df ws results h
  obtain ⟨m1, m2, m3, m4, a1, a2, a3, a4, hws0, hrs⟩ := runLoop_configs_shape o _ _ _ _ hrl
  have hcls : classesOf (labels (fillStellarTemp df)) = classesOf (labels df) := by
    rw [labels_fillStellarTemp]
  intro n hn
  rw [hws, hws0]
  fin_cases hn
  · exact ⟨m1, by simp [isArtifactFor]⟩
  · exact ⟨m2, by simp [isArtifactFor]⟩
  · exact ⟨m3, by simp [isArtifactFor]⟩
  · exact ⟨m4, by simp [isArtifactFor, hcls]⟩

/-- Witness for C7 on the concrete 4-row two-class frame, instantiated at the
names RandomForest and XGBoost. -/
theorem artifact_per_model_witness :
    (∃ m, (([Write.artifact "RandomForest" FEATURES none (),
             Write.artifact "SVM" FEATURES none (),
             Write.artifact "NeuralNet" FEATURES none (),
             Write.artifact "XGBoost" FEATURES (some ["a", "b"]) (),
             Write.bestMarker "XGBoost"] : List (Write Unit)).filter
               (isArtifactFor "RandomForest")) =
      [Write.artifact "RandomForest" FEATURES
        (if "RandomForest" = "XGBoost" then
          some (classesOf (labels
            ⟨true, [⟨1, 1, 1, some 1, "a"⟩, ⟨2, 2, 2, some 2, "a"⟩,
                    ⟨3, 3, 3, some 3, "b"⟩, ⟨4, 4, 4, some 4, "b"⟩]⟩))
         else none) m]) ∧
    (∃ m, (([Write.artifact "RandomForest" FEATURES none (),
             Write.artifact "SVM" FEATURES none (),
             Write.artifact "NeuralNet" FEATURES none (),
             Write.artifact "XGBoost" FEATURES (some ["a", "b"]) (),
             Write.bestMarker "XGBoost"] : List (Write Unit)).filter
               (isArtifactFor "XGBoost")) =
      [Write.artifact "XGBoost" FEATURES
        (if "XGBoost" = "XGBoost" then
          some (classesOf (labels
            ⟨true, [⟨1, 1, 1, some 1, "a"⟩, ⟨2, 2, 2, some 2, "a"⟩,
                    ⟨3, 3, 3, some 3, "b"⟩, ⟨4, 4, 4, some 4, "b"⟩]⟩))
         else none) m]) :=
  ⟨artifact_per_model trivialOracle 0
    ⟨true, [⟨1, 1, 1, some 1, "a"⟩, ⟨2, 2, 2, some 2, "a"⟩,
            ⟨3, 3, 3, some 3, "b"⟩, ⟨4, 4, 4, some 4, "b"⟩]⟩
    _ [("RandomForest", 0), ("SVM", 0), ("NeuralNet", 0), ("XGBoost", 1/2)]
    (by with_unfolding_all decide) "RandomForest" (by decide),
   artifact_per_model trivialOracle 0
    ⟨true, [⟨1, 1, 1, some 1, "a"⟩, ⟨2, 2, 2, some 2, "a"⟩,
            ⟨3, 3, 3, some 3, "b"⟩, ⟨4, 4, 4, some 4, "b"⟩]⟩
    _ [("RandomForest", 0), ("SVM", 0), ("NeuralNet", 0), ("XGBoost", 1/2)]
    (by with_unfolding_all decide) "XGBoost" (by decide)⟩

/-- C8: an artifact is emitted only by a model's own successful fit, evaluate
and serialize step (`trainOne` returns the artifact only in its `ok` case),
and when the step of model N fails — fitting or serialization raising — the
loop ends with exactly the artifacts of the models before N still written (no
rollback) and nothing of model N or any later model written or trained. -/
theorem failure_preserves_prior_artifacts {μ : Type} (o : Oracle μ) (cls : List String)
    (sd : SplitData) (pre : List (String × PipelineCfg)) (nc : String × PipelineCfg)
    (post : List (String × PipelineCfg)) (wsPre : List (Write μ))
    (rsPre : List (String × ℚ)) (e : String)
    (hpre : runLoop o cls sd pre = (wsPre, .ok rsPre))
    (hfail : trainOne o cls sd nc = .error e) :
    runLoop o cls sd (pre ++ nc :: post) = (wsPre, .error e) := by
  induction pre generalizing wsPre rsPre with
  | nil =>
      simp only [runLoop, Prod.mk.injEq, Except.ok.injEq] at hpre
      rw [List.nil_append, runLoop_cons_of_error o cls sd nc post e hfail, ← hpre.1]
  | cons a t ih =>
      obtain ⟨acc, w, ws2, rs2, htr, hrest, hw, hr⟩ :=
        runLoop_cons_ok o cls sd a t wsPre rsPre hpre
      rw [List.cons_append, runLoop_cons_of_ok o cls sd a (t ++ nc :: post) acc w htr,
        ih ws2 rs2 hrest, hw]
      simp [Except.map]

/-- Witness for C8: with serialization failing at SVM, the loop over all four
configurations keeps exactly the RandomForest artifact and raises. -/
theorem failure_preserves_prior_artifacts_witness :
    runLoop failingDumpOracle [] ⟨[], [], [], [], [], []⟩
      ([("RandomForest", ⟨true, .randomForest 300 6 42⟩)] ++
        ("SVM", ⟨true, .svc 3 true 300 42⟩) ::
        [("NeuralNet", ⟨true, .mlp 64 32 300 42 (1/10)⟩),
         ("XGBoost", ⟨true, .xgboost 300 6 42 (1/10) (4/5) (4/5)⟩)]) =
      ([Write.artifact "RandomForest" FEATURES none ()], .error "disk full") :=
  failure_preserves_prior_artifacts failingDumpOracle [] ⟨[], [], [], [], [], []⟩
    [("RandomForest", ⟨true, .randomForest 300 6 42⟩)]
    ("SVM", ⟨true, .svc 3 true 300 42⟩)
    [("NeuralNet", ⟨true, .mlp 64 32 300 42 (1/10)⟩),
     ("XGBoost", ⟨true, .xgboost 300 6 42 (1/10) (4/5) (4/5)⟩)]
    _ [("RandomForest", 0)] _
    (by with_unfolding_all decide) (by with_unfolding_all decide)

/-- C10: the parallel split of the integer-encoded labels selects exactly the
rows of the primary string-label split — the encoded test-label vector is the
element-wise encoding of the string test-label vector (and likewise for the
training vectors), so XGBoost is trained and scored on the same held-out rows
as the other three models.  The two `train_test_split` calls share seed, size
and stratification flag, and the class partition of the encoded column equals
that of the string column because `numpy.unique` ranks are idempotent. -/
theorem encoded_split_matches_primary (df : DataFrame) :
    (splitData df).yTestEnc = (splitData df).yTest.map (encodeLabel (labels df)) ∧
    (splitData df).yTrainEnc = (splitData df).yTrain.map (encodeLabel (labels df)) := by
  have harg : stratArgN (doStratify (labels df)) (encodeAll (labels df)) =
      stratArg (doStratify (labels df)) (labels df) := by
    unfold stratArg stratArgN
    cases h : doStratify (labels df) <;> simp [encodeAllN_encodeAll]
  have hlen : ∀ codes, stratArg (doStratify (labels df)) (labels df) = some codes →
      codes.length = (labels df).length := by
    intro codes hc
    unfold stratArg at hc
    split at hc
    · injection hc with hh
      rw [← hh]
      simp [encodeAll]
    · exact Option.noConfusion hc
  have hlt := splitIndices_lt 42 (labels df).length
    (resolveTestSize (testSizeOf (labels df).length) (labels df).length)
    (stratArg (doStratify (labels df)) (labels df)) hlen
  simp only [splitData]
  rw [harg]
  constructor
  · rw [List.map_map]
    apply List.map_congr_left
    intro i hi
    exact getD_map_encode _ i (hlt.2 i hi)
  · rw [List.map_map]
    apply List.map_congr_left
    intro i hi
    exact getD_map_encode _ i (hlt.1 i hi)

/-- C9: `train_all` is deterministic in its data input — with every estimator
seeded by the fixed `random_state = 42`, two invocations on identical input
data (whatever the ambient process entropy) return identical per-model
accuracy mappings. -/
theorem train_all_deterministic {μ : Type} (o : Oracle μ) (e1 e2 : ℕ)
    (df1 df2 : DataFrame) (h : df1 = df2) :
    trainAll o e1 df1 = trainAll o e2 df2 := by
  subst h
  rfl

/-- Witness for C9 at a concrete frame and distinct entropy values. -/
theorem train_all_deterministic_witness :
    trainAll trivialOracle 0 ⟨true, []⟩ = trainAll trivialOracle 1 ⟨true, []⟩ :=
  train_all_deterministic trivialOracle 0 1 ⟨true, []⟩ ⟨true, []⟩ rfl

/-- C1: on a prepared dataset with fewer than 4 rows or fewer than 2 distinct
label classes, `train_all` raises a validation error, nothing is written (no
artifact, no best-model marker), and no model is trained — the outcome does
not depend on the fitting oracle at all. -/
theorem validation_error_writes_nothing {μ : Type} (o : Oracle μ) (e : ℕ)
    (df : DataFrame) (h : df.rows.length < 4 ∨ nunique (labels df) < 2) :
    (trainAll o e df).1 = [] ∧ (∃ msg, (trainAll o e df).2 = .error msg) ∧
    ∀ o2 : Oracle μ, trainAll o2 e df = trainAll o e df := by
  have step : ∀ o2 : Oracle μ, trainAll o2 e df =
      ([], .error (if (labels (fillStellarTemp df)).length < 4
        then "Dataset must contain at least 4 samples to train and test models."
        else "Dataset must contain at least two classes to train a classifier.")) := by
    intro o2
    by_cases h4 : (labels (fillStellarTemp df)).length < 4
    · simp only [trainAll, if_pos h4]
    · have h2 : nunique (labels (fillStellarTemp df)) < 2 := by
        rw [labels_fillStellarTemp]
        rcases h with hh | hh
        · exfalso
          apply h4
          rw [labels_fillStellarTemp, length_labels]
          exact hh
        · exact hh
      simp only [trainAll, if_neg h4, if_pos h2]
  exact ⟨by rw [step o], ⟨_, by rw [step o]⟩, fun o2 => by rw [step o2, step o]⟩

/-- Witness for C1 on a 3-row frame. -/
theorem validation_error_writes_nothing_witness :
    (trainAll trivialOracle 0
      ⟨true, [⟨1, 1, 1, some 1, "a"⟩, ⟨2, 2, 2, some 2, "b"⟩, ⟨3, 3, 3, some 3, "a"⟩]⟩).1
        = [] ∧
    ∃ msg, (trainAll trivialOracle 0
      ⟨true, [⟨1, 1, 1, some 1, "a"⟩, ⟨2, 2, 2, some 2, "b"⟩, ⟨3, 3, 3, some 3, "a"⟩]⟩).2
        = .error msg :=
  ⟨(validation_error_writes_nothing trivialOracle 0 _ (Or.inl (by decide))).1,
   (validation_error_writes_nothing trivialOracle 0 _ (Or.inl (by decide))).2.1⟩

end ModelTrainer
